import Mathlib

/-!
Shallow embedding of the two lock-file regeneration scripts of this
repository:

* Variant A: `scripts/generate-test-fixtures.py`
  (`find_pyproject_files`, `generate_lock_files`,
  `cleanup_pixi_environments`, `main`), and
* Variant B: `tests/data/mkdocs-deploy/generate-pixi-locks.py` (`main`).

Filesystem state is modelled per fixture directory (presence of a
`pixi.lock` file and of a `.pixi` cache directory), and the external
`pixi` tool is modelled as a deterministic per-directory behaviour
(whether the executable is missing, how long `pixi install` runs, and
with which exit code it finishes).  Each run produces a trace of
observable events (deletions, subprocess invocations, per-fixture
outcome classifications, log lines, the final summary), a result, and
the updated filesystem state.
-/

/-- Per-fixture outcome classification of a `pixi install` invocation,
as printed by Variant A: success (exit code 0), failure (non-zero exit
code), or timeout (bounded wait exceeded). -/
inductive Outcome
  | success
  | failure
  | timeout
  deriving DecidableEq

/-- Deterministic behaviour of the external `pixi` tool when invoked in
one fixture directory: whether the executable is absent from the
environment, how many seconds the `install` subcommand would run, and
the exit code it would finish with. -/
structure ToolBehavior where
  missing : Bool
  duration : Nat
  exitCode : Nat
  deriving DecidableEq

/-- The arguments of one `subprocess.run` call: the command list, the
working directory, whether output is captured, whether it is decoded as
text, the optional timeout bound in seconds, and the `check` flag. -/
structure RunArgs where
  cmd : List String
  cwd : String
  captureOutput : Bool
  text : Bool
  timeout : Option Nat
  check : Bool
  deriving DecidableEq

/-- `subprocess.run(["pixi", "install"], cwd=test_dir, capture_output=True,
text=True, timeout=300)` as built by Variant A (lines 52-58 of
`generate-test-fixtures.py`). -/
def pixiInstallArgsA (dir : String) : RunArgs :=
  { cmd := ["pixi", "install"], cwd := dir, captureOutput := true,
    text := true, timeout := some 300, check := false }

/-- `subprocess.run(["pixi", "install"], cwd=dir_path, capture_output=True,
text=True, check=True)` as built by Variant B (lines 27-33 of
`generate-pixi-locks.py`); no timeout bound is passed. -/
def pixiInstallArgsB (dir : String) : RunArgs :=
  { cmd := ["pixi", "install"], cwd := dir, captureOutput := true,
    text := true, timeout := none, check := true }

/-- The possible results of a `subprocess.run` call in these scripts:
normal completion with a return code, a `TimeoutExpired` exception, or a
`FileNotFoundError` (tool executable missing). -/
inductive SubprocessOutcome
  | completed (returncode : Nat)
  | timeoutExpired
  | fileNotFound
  deriving DecidableEq

/-- Semantics of `subprocess.run` for a deterministic tool behaviour: a
missing executable raises `FileNotFoundError`; otherwise, when a timeout
bound is given and the tool would run longer, `TimeoutExpired` is
raised; otherwise the call completes with the tool's exit code. -/
def subprocessRun (args : RunArgs) (tool : ToolBehavior) : SubprocessOutcome :=
  if tool.missing then SubprocessOutcome.fileNotFound
  else
    match args.timeout with
    | some bound =>
        if bound < tool.duration then SubprocessOutcome.timeoutExpired
        else SubprocessOutcome.completed tool.exitCode
    | none => SubprocessOutcome.completed tool.exitCode

/-- Observable events of a run, in program order: deletion of a
pre-existing `pixi.lock`, a subprocess invocation, a per-fixture outcome
classification line, the pixi install-instructions message, the three
per-fixture cleanup reports, the Variant A locator's missing-directory
error, Variant B's skipped-directory message, and Variant A's final
summary block. -/
inductive Event
  | deleteLock (dir : String)
  | invoke (args : RunArgs)
  | classify (dir : String) (o : Outcome)
  | logNotFoundHelp
  | cleanDeleted (dir : String)
  | cleanFailed (dir : String)
  | cleanSkipped (dir : String)
  | logLocatorMissing
  | logDirSkipped (dir : String)
  | summary (success failed : Nat)
  deriving DecidableEq

/-- Event predicate: is this event a `pixi.lock` deletion? -/
def Event.isDeleteLock : Event → Bool
  | Event.deleteLock _ => true
  | _ => false

/-- Event predicate: is this event a subprocess invocation? -/
def Event.isInvoke : Event → Bool
  | Event.invoke _ => true
  | _ => false

/-- Event predicate: is this event a per-fixture outcome classification? -/
def Event.isClassify : Event → Bool
  | Event.classify _ _ => true
  | _ => false

/-- Event predicate: is this event one of the Environment Cleaner's
per-fixture reports? -/
def Event.isCleanup : Event → Bool
  | Event.cleanDeleted _ => true
  | Event.cleanFailed _ => true
  | Event.cleanSkipped _ => true
  | _ => false

/-- Event predicate: is this event the final summary block? -/
def Event.isSummary : Event → Bool
  | Event.summary _ _ => true
  | _ => false

/-- A Variant A fixture directory (an immediate subdirectory of
`tests/data/pixi` containing a `pyproject.toml`): its directory name,
whether a `pixi.lock` file is currently present, whether a `.pixi`
cache directory is currently present, the deterministic behaviour of
the external tool in this directory, and whether the filesystem would
raise an `OSError` on `Path.unlink` of the lock file, respectively on
`shutil.rmtree` of the cache directory. -/
structure FixtureA where
  name : String
  hasLock : Bool
  hasPixi : Bool
  tool : ToolBehavior
  unlinkRaises : Bool
  rmtreeRaises : Bool
  deriving DecidableEq

/-- Result of `generate_lock_files`: an uncaught `OSError` escaping from
the `unlink` call (which is outside the `try` block), the `return False`
taken on `FileNotFoundError` (or on an empty input list), or the normal
`return success_count, failed_count`. -/
inductive GenResult
  | raisedOSError (dir : String)
  | returnedFalse
  | counts (success failed : Nat)
  deriving DecidableEq

/-- The `for toml_file in pyproject_files` loop of `generate_lock_files`
(lines 36-76 of `generate-test-fixtures.py`), threading the
`success_count` and `failed_count` accumulators.  Per fixture: delete a
pre-existing lock file (an `OSError` here propagates, aborting the
whole loop), then invoke the tool; exit code 0 counts as success (and
the tool has written a fresh lock file), non-zero exit as failure,
`TimeoutExpired` as failure, and `FileNotFoundError` returns `False`
immediately without touching the remaining fixtures. -/
def genLoop : List FixtureA → Nat → Nat → List Event × GenResult × List FixtureA
  | [], s, f => ([], GenResult.counts s f, [])
  | fx :: rest, s, f =>
    if fx.hasLock && fx.unlinkRaises then
      ([], GenResult.raisedOSError fx.name, fx :: rest)
    else
      let fx1 := if fx.hasLock then { fx with hasLock := false } else fx
      let ev1 := if fx.hasLock then [Event.deleteLock fx.name] else []
      let args := pixiInstallArgsA fx.name
      match subprocessRun args fx.tool with
      | SubprocessOutcome.fileNotFound =>
          (ev1 ++ [Event.invoke args, Event.logNotFoundHelp],
           GenResult.returnedFalse, fx1 :: rest)
      | SubprocessOutcome.timeoutExpired =>
          let r := genLoop rest s (f + 1)
          (ev1 ++ [Event.invoke args, Event.classify fx.name Outcome.timeout] ++ r.1,
           r.2.1, fx1 :: r.2.2)
      | SubprocessOutcome.completed c =>
          if c = 0 then
            let r := genLoop rest (s + 1) f
            (ev1 ++ [Event.invoke args, Event.classify fx.name Outcome.success] ++ r.1,
             r.2.1, { fx1 with hasLock := true } :: r.2.2)
          else
            let r := genLoop rest s (f + 1)
            (ev1 ++ [Event.invoke args, Event.classify fx.name Outcome.failure] ++ r.1,
             r.2.1, fx1 :: r.2.2)

/-- `generate_lock_files` (lines 25-76): an empty input list returns
`False` immediately; otherwise the per-fixture loop runs with both
counters starting at zero. -/
def generateLockFiles (fs : List FixtureA) : List Event × GenResult × List FixtureA :=
  if fs.isEmpty then ([], GenResult.returnedFalse, fs)
  else genLoop fs 0 0

/-- `shutil.rmtree(pixi_dir)` on one fixture's `.pixi` directory, as an
exception-transparent operation: it either removes the directory or
raises. -/
def rmtreePixi (fx : FixtureA) : Except String FixtureA :=
  if fx.rmtreeRaises then Except.error fx.name
  else Except.ok { fx with hasPixi := false }

/-- One iteration of the `cleanup_pixi_environments` loop (lines 86-100):
if the `.pixi` directory exists, try to delete it, catching any
exception (`except Exception`) and counting it as failed; otherwise
report the fixture as skipped.  Returns the report event, the
increments of the cleaned and failed counters, and the updated
fixture. -/
def cleanupStep (fx : FixtureA) : Event × Nat × Nat × FixtureA :=
  if fx.hasPixi then
    match rmtreePixi fx with
    | Except.ok fx2 => (Event.cleanDeleted fx.name, 1, 0, fx2)
    | Except.error _ => (Event.cleanFailed fx.name, 0, 1, fx)
  else (Event.cleanSkipped fx.name, 0, 0, fx)

/-- `cleanup_pixi_environments` (lines 79-103): run `cleanupStep` on
every fixture, collecting the report events, the cleaned and failed
counts, and the updated fixtures. -/
def cleanupRun : List FixtureA → List Event × Nat × Nat × List FixtureA
  | [] => ([], 0, 0, [])
  | fx :: rest =>
    let st := cleanupStep fx
    let r := cleanupRun rest
    (st.1 :: r.1, st.2.1 + r.2.1, st.2.2.1 + r.2.2.1, st.2.2.2 :: r.2.2.2)

/-- `cleanup_pixi_environments` viewed in the exception monad: each
per-fixture `rmtree` error is caught inside `cleanupStep`, so the
function as a whole can only ever return normally.  Proving that this
always yields `Except.ok` is the formal counterpart of "this component
never raises to its caller". -/
def cleanupE : List FixtureA → Except String (List Event × Nat × Nat × List FixtureA)
  | [] => Except.ok ([], 0, 0, [])
  | fx :: rest => do
    let st := cleanupStep fx
    let r ← cleanupE rest
    Except.ok (st.1 :: r.1, st.2.1 + r.2.1, st.2.2.1 + r.2.2.1, st.2.2.2 :: r.2.2.2)

/-- The guarded cleanup call of `main` (lines 127-129): the Environment
Cleaner is invoked only when `success_count > 0`; otherwise the trace
gains no events and the fixtures are untouched. -/
def maybeCleanup (s : Nat) (fs : List FixtureA) : List Event × List FixtureA :=
  if 0 < s then
    let c := cleanupRun fs
    (c.1, c.2.2.2)
  else ([], fs)

/-- The world Variant A operates on: whether the fixtures root
`tests/data/pixi` exists, and the fixture directories found under it
(in filesystem enumeration order). -/
structure WorldA where
  fixturesDirExists : Bool
  fixtures : List FixtureA
  deriving DecidableEq

/-- How the Variant A process ends: a `sys.exit(code)` or normal return
(`exited`), or an uncaught exception escaping `main` (`uncaught`), which
CPython reports with a traceback. -/
inductive MainResult
  | exited (code : Nat)
  | uncaught (dir : String)
  deriving DecidableEq

/-- The operating-system exit status of the process for a given
`MainResult`: `sys.exit(code)` exits with `code`, and an uncaught
exception makes the interpreter exit with status 1. -/
def exitStatus : MainResult → Nat
  | MainResult.exited c => c
  | MainResult.uncaught _ => 1

/-- `find_pyproject_files` (lines 13-22): if the fixtures root does not
exist, log an error and return an empty list; otherwise return the
discovered fixture directories. -/
def findPyprojectFiles (w : WorldA) : List Event × List FixtureA :=
  if w.fixturesDirExists then ([], w.fixtures)
  else ([Event.logLocatorMissing], [])

/-- `main` of Variant A (lines 106-142): locate the fixtures, exit 1 if
none were found, run `generate_lock_files`; an uncaught `OSError`
propagates out of `main` (no summary is printed), `False` exits 1, and
otherwise the `.pixi` cleanup runs when at least one fixture succeeded,
the summary block is printed, and the process exits 1 exactly when some
fixture failed. -/
def mainA (w : WorldA) : List Event × MainResult × WorldA :=
  let loc := findPyprojectFiles w
  if loc.2.isEmpty then
    (loc.1, MainResult.exited 1, w)
  else
    let g := generateLockFiles loc.2
    match g.2.1 with
    | GenResult.raisedOSError d =>
        (loc.1 ++ g.1, MainResult.uncaught d, { w with fixtures := g.2.2 })
    | GenResult.returnedFalse =>
        (loc.1 ++ g.1, MainResult.exited 1, { w with fixtures := g.2.2 })
    | GenResult.counts s f =>
        let c := maybeCleanup s g.2.2
        (loc.1 ++ g.1 ++ c.1 ++ [Event.summary s f],
         MainResult.exited (if 0 < f then 1 else 0),
         { w with fixtures := c.2 })

/-- The hardcoded fixture-directory list of Variant B (lines 9-13 of
`generate-pixi-locks.py`). -/
def PIXI_DIRS : List String :=
  ["test-pull-request-pixi", "test-release-trigger-pixi",
   "test-package-manager-commands"]

/-- A Variant B fixture entry: one of the hardcoded directory names,
whether that directory exists on disk, whether it currently holds a
`pixi.lock` file, and the deterministic tool behaviour there. -/
structure FixtureB where
  name : String
  dirExists : Bool
  hasLock : Bool
  tool : ToolBehavior
  deriving DecidableEq

/-- The `for dir_name in PIXI_DIRS` loop of Variant B's `main`
(lines 18-42): a missing directory is logged and skipped; otherwise
`pixi install` runs with `check=True` and no timeout; a non-zero exit
(`CalledProcessError`) or a missing executable (`FileNotFoundError`)
prints a message and exits 1 immediately, leaving the remaining entries
unprocessed; otherwise the loop continues.  Returns the trace, the
process exit code, and the updated fixtures.  (The `timeoutExpired`
branch is unreachable because no timeout bound is passed; see
`subprocessRun`.) -/
def mainBLoop : List FixtureB → List Event × Nat × List FixtureB
  | [] => ([], 0, [])
  | fx :: rest =>
    if fx.dirExists then
      let args := pixiInstallArgsB fx.name
      match subprocessRun args fx.tool with
      | SubprocessOutcome.completed c =>
          if c = 0 then
            let r := mainBLoop rest
            (Event.invoke args :: Event.classify fx.name Outcome.success :: r.1,
             r.2.1, { fx with hasLock := true } :: r.2.2)
          else
            ([Event.invoke args, Event.classify fx.name Outcome.failure],
             1, fx :: rest)
      | SubprocessOutcome.fileNotFound =>
          ([Event.invoke args, Event.logNotFoundHelp], 1, fx :: rest)
      | SubprocessOutcome.timeoutExpired =>
          ([Event.invoke args], 1, fx :: rest)
    else
      let r := mainBLoop rest
      (Event.logDirSkipped fx.name :: r.1, r.2.1, fx :: r.2.2)

/-- `main` of Variant B (lines 15-47): the loop over the hardcoded
directory list; falling off the end prints the success line and the
process exits 0. -/
def mainB (fs : List FixtureB) : List Event × Nat × List FixtureB :=
  mainBLoop fs

/-- Does deleting the pre-existing lock file of this fixture abort the
run with an uncaught `OSError`?  (True only when there is a lock file to
delete and `unlink` raises.) -/
def abortsUnlink (fx : FixtureA) : Bool :=
  fx.hasLock && fx.unlinkRaises

/-- A fixture whose processing neither raises on `unlink` nor hits a
missing tool executable: such a fixture is fully processed (classified
success, failure or timeout) and the loop moves on. -/
def normalA (fx : FixtureA) : Bool :=
  !(abortsUnlink fx) && !fx.tool.missing

/-- The outcome Variant A assigns to a fixture whose tool invocation
actually runs: a duration beyond the 300-second bound is a timeout,
exit code 0 a success, anything else a failure. -/
def outcomeOfA (fx : FixtureA) : Outcome :=
  if 300 < fx.tool.duration then Outcome.timeout
  else if fx.tool.exitCode = 0 then Outcome.success
  else Outcome.failure

/-- The events one `normalA` fixture contributes to the trace: the lock
deletion (when a lock was present), the subprocess invocation, and the
outcome classification. -/
def stepEventsA (fx : FixtureA) : List Event :=
  (if fx.hasLock then [Event.deleteLock fx.name] else []) ++
  [Event.invoke (pixiInstallArgsA fx.name),
   Event.classify fx.name (outcomeOfA fx)]

/-- The state of one `normalA` fixture after its processing: on success
the tool has written a fresh `pixi.lock`; otherwise any pre-existing
lock file is gone (it was deleted up front) and none was created. -/
def stepFixA (fx : FixtureA) : FixtureA :=
  if outcomeOfA fx = Outcome.success then { fx with hasLock := true }
  else if fx.hasLock then { fx with hasLock := false } else fx

/-- How much one `normalA` fixture adds to `success_count`. -/
def succIncr (fx : FixtureA) : Nat :=
  if outcomeOfA fx = Outcome.success then 1 else 0

/-- How much one `normalA` fixture adds to `failed_count`. -/
def failIncr (fx : FixtureA) : Nat :=
  if outcomeOfA fx = Outcome.success then 0 else 1

/-- Number of fixtures in the list that would be classified as
successes. -/
def succCountA (fs : List FixtureA) : Nat :=
  fs.countP (fun fx => decide (outcomeOfA fx = Outcome.success))

/-- Number of fixtures in the list that would be classified as failures
or timeouts. -/
def failCountA (fs : List FixtureA) : Nat :=
  fs.countP (fun fx => decide (outcomeOfA fx ≠ Outcome.success))

/-- A Variant A fixture whose run goes all the way to a success
classification: no aborting `unlink`, tool present, within the time
bound, exit code 0. -/
def fixtureSucceedsA (fx : FixtureA) : Bool :=
  normalA fx && decide (outcomeOfA fx = Outcome.success)

/-- A Variant B fixture whose `pixi install` succeeds: tool present and
exit code 0. -/
def fixtureSucceedsB (fx : FixtureB) : Bool :=
  !fx.tool.missing && decide (fx.tool.exitCode = 0)

/-- The exit status Variant A's `main` derives from a
`generate_lock_files` result: an uncaught exception or `False` means
status 1, counts mean status 1 exactly when some fixture failed. -/
def genExit : GenResult → Nat
  | GenResult.raisedOSError _ => 1
  | GenResult.returnedFalse => 1
  | GenResult.counts _ f => if 0 < f then 1 else 0

/-- The classification events a fixture list gives rise to, in order,
stopping at the first fixture whose tool executable is missing (where
the run returns `False`).  Depends only on each fixture's name and tool
behaviour. -/
def classifySeq : List FixtureA → List Event
  | [] => []
  | fx :: rest =>
    if fx.tool.missing then []
    else Event.classify fx.name (outcomeOfA fx) :: classifySeq rest

/-- The part of a fixture that is preserved by a whole Variant A run:
its directory name, the tool behaviour there, and whether `unlink`
would raise.  (Only the lock-file and cache-directory presence flags
change.) -/
def projA (fx : FixtureA) : String × ToolBehavior × Bool :=
  (fx.name, fx.tool, fx.unlinkRaises)

/-- Concrete tool behaviour: tool present, fast, exit code 0. -/
def toolOk : ToolBehavior := { missing := false, duration := 1, exitCode := 0 }

/-- Concrete tool behaviour: tool present, fast, exit code 1. -/
def toolFail : ToolBehavior := { missing := false, duration := 1, exitCode := 1 }

/-- Concrete tool behaviour: the executable is missing. -/
def toolAbsent : ToolBehavior := { missing := true, duration := 1, exitCode := 0 }

/-- Concrete tool behaviour: tool present but the install runs 301
seconds, beyond the 300-second bound. -/
def toolSlow : ToolBehavior := { missing := false, duration := 301, exitCode := 0 }

/-- The events one non-aborting Variant B entry contributes to the
trace: either the invocation and its success classification, or the
skipped-directory message. -/
def stepEventsB (fx : FixtureB) : List Event :=
  if fx.dirExists then
    [Event.invoke (pixiInstallArgsB fx.name),
     Event.classify fx.name Outcome.success]
  else [Event.logDirSkipped fx.name]

/-- The state of one non-aborting Variant B entry after its processing:
a successful `pixi install` leaves a fresh `pixi.lock` behind; a skipped
entry is untouched. -/
def stepFixB (fx : FixtureB) : FixtureB :=
  if fx.dirExists then { fx with hasLock := true } else fx

/-- A Variant B entry that does not abort the run: either its directory
is missing (it is skipped) or its invocation succeeds. -/
def okB (fx : FixtureB) : Bool :=
  !fx.dirExists || (!fx.tool.missing && decide (fx.tool.exitCode = 0))

/-- Concrete Variant A fixture: no lock file, no cache, healthy tool. -/
def fxOkA : FixtureA :=
  { name := "a", hasLock := false, hasPixi := false, tool := toolOk,
    unlinkRaises := false, rmtreeRaises := false }

/-- Concrete Variant A fixture: pre-existing lock file, healthy tool. -/
def fxLockOk : FixtureA :=
  { name := "g", hasLock := true, hasPixi := false, tool := toolOk,
    unlinkRaises := false, rmtreeRaises := false }

/-- Concrete Variant A fixture: pre-existing lock file and a missing
tool executable. -/
def fxLockMissingTool : FixtureA :=
  { name := "b", hasLock := true, hasPixi := false, tool := toolAbsent,
    unlinkRaises := false, rmtreeRaises := false }

/-- Concrete Variant A fixture: pre-existing lock file whose deletion
raises an `OSError`. -/
def fxUnlinkBoom : FixtureA :=
  { name := "c", hasLock := true, hasPixi := false, tool := toolOk,
    unlinkRaises := true, rmtreeRaises := false }

/-- Concrete Variant A fixture: the tool runs past the 300-second
bound. -/
def fxSlowA : FixtureA :=
  { name := "d", hasLock := false, hasPixi := false, tool := toolSlow,
    unlinkRaises := false, rmtreeRaises := false }

/-- Concrete Variant A fixture: a `.pixi` cache whose deletion raises. -/
def fxPixiBoom : FixtureA :=
  { name := "e", hasLock := false, hasPixi := true, tool := toolOk,
    unlinkRaises := false, rmtreeRaises := true }

/-- Concrete Variant A fixture: no lock file initially, but deleting a
lock file in this directory would raise (e.g. a directory writable but
whose entries cannot be removed). -/
def trickyFixtureA : FixtureA :=
  { name := "t", hasLock := false, hasPixi := false, tool := toolOk,
    unlinkRaises := true, rmtreeRaises := false }

/-- Concrete Variant A world around `trickyFixtureA`. -/
def trickyWorldA : WorldA :=
  { fixturesDirExists := true, fixtures := [trickyFixtureA] }

/-- Concrete Variant A world: one healthy fixture. -/
def cleanWorldA : WorldA :=
  { fixturesDirExists := true, fixtures := [fxOkA] }

/-- Concrete Variant A world: the fixtures root is missing. -/
def noRootWorld : WorldA := { fixturesDirExists := false, fixtures := [] }

/-- Concrete Variant A world: one fixture with a lock file and a
missing tool executable. -/
def missingToolWorld : WorldA :=
  { fixturesDirExists := true, fixtures := [fxLockMissingTool] }

/-- Concrete Variant A world: one fixture whose lock deletion raises. -/
def unlinkBoomWorld : WorldA :=
  { fixturesDirExists := true, fixtures := [fxUnlinkBoom] }

/-- Concrete Variant B entry: existing directory with a pre-existing
lock file and a healthy tool. -/
def bLocked : FixtureB :=
  { name := "test-pull-request-pixi", dirExists := true, hasLock := true,
    tool := toolOk }

/-- Concrete Variant B entry: existing directory, tool exits 1. -/
def bFail : FixtureB :=
  { name := "test-pull-request-pixi", dirExists := true, hasLock := false,
    tool := toolFail }

/-- Concrete Variant B entry: existing directory, healthy tool. -/
def bOk2 : FixtureB :=
  { name := "test-release-trigger-pixi", dirExists := true, hasLock := false,
    tool := toolOk }

/-- Concrete Variant B entry: existing directory, missing tool. -/
def bNoTool : FixtureB :=
  { name := "test-pull-request-pixi", dirExists := true, hasLock := false,
    tool := toolAbsent }

/-- Concrete Variant B entries: none of the three hardcoded directories
exists on disk. -/
def bMissing1 : FixtureB :=
  { name := "test-pull-request-pixi", dirExists := false, hasLock := false,
    tool := toolOk }

/-- Second missing-directory entry. -/
def bMissing2 : FixtureB :=
  { name := "test-release-trigger-pixi", dirExists := false, hasLock := false,
    tool := toolOk }

/-- Third missing-directory entry. -/
def bMissing3 : FixtureB :=
  { name := "test-package-manager-commands", dirExists := false,
    hasLock := false, tool := toolOk }

lemma genLoop_cons_raise (fx : FixtureA) (rest : List FixtureA) (s f : Nat)
    (h : abortsUnlink fx = true) :
    genLoop (fx :: rest) s f = ([], GenResult.raisedOSError fx.name, fx :: rest) := by
  unfold abortsUnlink at h
  simp [genLoop, h]

lemma genLoop_cons_missing (fx : FixtureA) (rest : List FixtureA) (s f : Nat)
    (h1 : abortsUnlink fx = false) (h2 : fx.tool.missing = true) :
    genLoop (fx :: rest) s f =
      ((if fx.hasLock then [Event.deleteLock fx.name] else []) ++
         [Event.invoke (pixiInstallArgsA fx.name), Event.logNotFoundHelp],
       GenResult.returnedFalse,
       (if fx.hasLock then { fx with hasLock := false } else fx) :: rest) := by
  unfold abortsUnlink at h1
  simp [genLoop, h1, subprocessRun, h2]

lemma genLoop_cons_normal (fx : FixtureA) (rest : List FixtureA) (s f : Nat)
    (h : normalA fx = true) :
    genLoop (fx :: rest) s f =
      (stepEventsA fx ++ (genLoop rest (s + succIncr fx) (f + failIncr fx)).1,
       (genLoop rest (s + succIncr fx) (f + failIncr fx)).2.1,
       stepFixA fx :: (genLoop rest (s + succIncr fx) (f + failIncr fx)).2.2) := by
  unfold normalA abortsUnlink at h
  have h1 : (fx.hasLock && fx.unlinkRaises) = false := by
    cases hb : fx.hasLock && fx.unlinkRaises <;> simp [hb] at h ⊢
  have h2 : fx.tool.missing = false := by
    cases hm : fx.tool.missing <;> simp [hm] at h ⊢
  by_cases ht : 300 < fx.tool.duration
  · have ho : outcomeOfA fx = Outcome.timeout := by simp [outcomeOfA, ht]
    simp [genLoop, h1, subprocessRun, h2, pixiInstallArgsA, ht, stepEventsA,
          stepFixA, ho, succIncr, failIncr]
  · by_cases hc : fx.tool.exitCode = 0
    · have ho : outcomeOfA fx = Outcome.success := by simp [outcomeOfA, ht, hc]
      simp [genLoop, h1, subprocessRun, h2, pixiInstallArgsA, ht, hc,
            stepEventsA, stepFixA, ho, succIncr, failIncr]
      cases hl : fx.hasLock <;> simp [hl]
    · have ho : outcomeOfA fx = Outcome.failure := by simp [outcomeOfA, ht, hc]
      simp [genLoop, h1, subprocessRun, h2, pixiInstallArgsA, ht, hc,
            stepEventsA, stepFixA, ho, succIncr, failIncr]

lemma genLoop_ok_prefix (fs₁ rest : List FixtureA) (s f : Nat)
    (h : ∀ fy ∈ fs₁, normalA fy = true) :
    genLoop (fs₁ ++ rest) s f =
      ((fs₁.map stepEventsA).flatten ++
         (genLoop rest (s + succCountA fs₁) (f + failCountA fs₁)).1,
       (genLoop rest (s + succCountA fs₁) (f + failCountA fs₁)).2.1,
       fs₁.map stepFixA ++
         (genLoop rest (s + succCountA fs₁) (f + failCountA fs₁)).2.2) := by
  induction fs₁ generalizing s f with
  | nil => simp [succCountA, failCountA]
  | cons fx fs ih =>
    have hfx : normalA fx = true := h fx (List.mem_cons_self fx fs)
    have hfs : ∀ fy ∈ fs, normalA fy = true :=
      fun fy hy => h fy (List.mem_cons_of_mem fx hy)
    have e1 : s + succIncr fx + succCountA fs = s + succCountA (fx :: fs) := by
      by_cases ho : outcomeOfA fx = Outcome.success <;>
        (simp [succCountA, succIncr, List.countP_cons, ho]; try omega)
    have e2 : f + failIncr fx + failCountA fs = f + failCountA (fx :: fs) := by
      by_cases ho : outcomeOfA fx = Outcome.success <;>
        (simp [failCountA, failIncr, List.countP_cons, ho]; try omega)
    have step := genLoop_cons_normal fx (fs ++ rest) s f hfx
    rw [List.cons_append, step, ih (s + succIncr fx) (f + failIncr fx) hfs, e1, e2]
    simp

lemma stepEventsA_countP_invoke (fx : FixtureA) :
    (stepEventsA fx).countP Event.isInvoke = 1 := by
  by_cases hl : fx.hasLock <;>
    simp [stepEventsA, hl, List.countP_cons, Event.isInvoke]

lemma stepEventsA_countP_classify (fx : FixtureA) :
    (stepEventsA fx).countP Event.isClassify = 1 := by
  by_cases hl : fx.hasLock <;>
    simp [stepEventsA, hl, List.countP_cons, Event.isClassify]

lemma stepEventsA_countP_summary (fx : FixtureA) :
    (stepEventsA fx).countP Event.isSummary = 0 := by
  by_cases hl : fx.hasLock <;>
    simp [stepEventsA, hl, List.countP_cons, Event.isSummary]

lemma flatten_stepEventsA_countP_invoke (fs : List FixtureA) :
    ((fs.map stepEventsA).flatten).countP Event.isInvoke = fs.length := by
  induction fs with
  | nil => simp
  | cons fx fs ih =>
      simp [List.countP_append, ih, stepEventsA_countP_invoke]
      omega

lemma flatten_stepEventsA_countP_classify (fs : List FixtureA) :
    ((fs.map stepEventsA).flatten).countP Event.isClassify = fs.length := by
  induction fs with
  | nil => simp
  | cons fx fs ih =>
      simp [List.countP_append, ih, stepEventsA_countP_classify]
      omega

lemma flatten_stepEventsA_countP_summary (fs : List FixtureA) :
    ((fs.map stepEventsA).flatten).countP Event.isSummary = 0 := by
  induction fs with
  | nil => simp
  | cons fx fs ih =>
      simp [List.countP_append, ih, stepEventsA_countP_summary]

lemma stepEventsA_countP_cleanup (fx : FixtureA) :
    (stepEventsA fx).countP Event.isCleanup = 0 := by
  by_cases hl : fx.hasLock <;>
    simp [stepEventsA, hl, List.countP_cons, Event.isCleanup]

lemma fixtureA_cases (fx : FixtureA) :
    abortsUnlink fx = true ∨ (abortsUnlink fx = false ∧ fx.tool.missing = true) ∨
      normalA fx = true := by
  by_cases h1 : abortsUnlink fx = true
  · exact Or.inl h1
  · by_cases h2 : fx.tool.missing = true
    · exact Or.inr (Or.inl ⟨by simpa using h1, h2⟩)
    · have e1 : abortsUnlink fx = false := by simpa using h1
      have e2 : fx.tool.missing = false := by simpa using h2
      exact Or.inr (Or.inr (by simp [normalA, e1, e2]))

lemma genLoop_trace_no_cleanup (fs : List FixtureA) (s f : Nat) :
    ((genLoop fs s f).1).countP Event.isCleanup = 0 := by
  induction fs generalizing s f with
  | nil => simp [genLoop]
  | cons fx rest ih =>
    rcases fixtureA_cases fx with h | ⟨h1, h2⟩ | h
    · rw [genLoop_cons_raise fx rest s f h]; simp
    · rw [genLoop_cons_missing fx rest s f h1 h2]
      by_cases hl : fx.hasLock <;>
        simp [hl, List.countP_cons, Event.isCleanup]
    · rw [genLoop_cons_normal fx rest s f h]
      simp [List.countP_append, stepEventsA_countP_cleanup, ih]

lemma genLoop_trace_no_summary (fs : List FixtureA) (s f : Nat) :
    ((genLoop fs s f).1).countP Event.isSummary = 0 := by
  induction fs generalizing s f with
  | nil => simp [genLoop]
  | cons fx rest ih =>
    rcases fixtureA_cases fx with h | ⟨h1, h2⟩ | h
    · rw [genLoop_cons_raise fx rest s f h]; simp
    · rw [genLoop_cons_missing fx rest s f h1 h2]
      by_cases hl : fx.hasLock <;>
        simp [hl, List.countP_cons, Event.isSummary]
    · rw [genLoop_cons_normal fx rest s f h]
      simp [List.countP_append, stepEventsA_countP_summary, ih]

lemma genLoop_invoke_shape (fs : List FixtureA) (s f : Nat) (args : RunArgs)
    (h : Event.invoke args ∈ (genLoop fs s f).1) :
    args = pixiInstallArgsA args.cwd := by
  induction fs generalizing s f with
  | nil => simp [genLoop] at h
  | cons fx rest ih =>
    rcases fixtureA_cases fx with hc | ⟨h1, h2⟩ | hc
    · rw [genLoop_cons_raise fx rest s f hc] at h; simp at h
    · rw [genLoop_cons_missing fx rest s f h1 h2] at h
      by_cases hl : fx.hasLock <;> simp [hl] at h <;>
        (subst h; simp [pixiInstallArgsA])
    · rw [genLoop_cons_normal fx rest s f hc] at h
      by_cases hl : fx.hasLock <;> simp [stepEventsA, hl] at h <;>
        rcases h with h | h
      · subst h; simp [pixiInstallArgsA]
      · exact ih _ _ h
      · subst h; simp [pixiInstallArgsA]
      · exact ih _ _ h

lemma genExit_zero_iff (fs : List FixtureA) (s f : Nat) :
    genExit (genLoop fs s f).2.1 = 0 ↔
      (f = 0 ∧ ∀ fx ∈ fs, fixtureSucceedsA fx = true) := by
  induction fs generalizing s f with
  | nil => simp [genLoop, genExit]
  | cons fx rest ih =>
    rcases fixtureA_cases fx with h | ⟨h1, h2⟩ | h
    · rw [genLoop_cons_raise fx rest s f h]
      constructor
      · intro h0; simp [genExit] at h0
      · rintro ⟨hf, hall⟩
        have := hall fx (List.mem_cons_self fx rest)
        simp [fixtureSucceedsA, normalA, h] at this
    · rw [genLoop_cons_missing fx rest s f h1 h2]
      constructor
      · intro h0; simp [genExit] at h0
      · rintro ⟨hf, hall⟩
        have := hall fx (List.mem_cons_self fx rest)
        simp [fixtureSucceedsA, normalA, h2] at this
    · by_cases ho : outcomeOfA fx = Outcome.success
      · have hi : succIncr fx = 1 := by simp [succIncr, ho]
        have hj : failIncr fx = 0 := by simp [failIncr, ho]
        rw [genLoop_cons_normal fx rest s f h]
        dsimp only
        rw [hi, hj]
        simp only [Nat.add_zero]
        rw [ih (s + 1) f]
        constructor
        · rintro ⟨hf, hall⟩
          refine ⟨hf, ?_⟩
          intro fy hy
          rcases List.mem_cons.mp hy with rfl | hy
          · simp [fixtureSucceedsA, h, ho]
          · exact hall fy hy
        · rintro ⟨hf, hall⟩
          exact ⟨hf, fun fy hy => hall fy (List.mem_cons_of_mem fx hy)⟩
      · have hi : succIncr fx = 0 := by simp [succIncr, ho]
        have hj : failIncr fx = 1 := by simp [failIncr, ho]
        rw [genLoop_cons_normal fx rest s f h]
        dsimp only
        rw [hi, hj]
        simp only [Nat.add_zero]
        rw [ih s (f + 1)]
        constructor
        · rintro ⟨hf, _⟩; omega
        · rintro ⟨hf, hall⟩
          have := hall fx (List.mem_cons_self fx rest)
          simp [fixtureSucceedsA, ho] at this

lemma mainA_exitStatus (w : WorldA) :
    exitStatus (mainA w).2.1 =
      if ((findPyprojectFiles w).2).isEmpty then 1
      else genExit (genLoop (findPyprojectFiles w).2 0 0).2.1 := by
  by_cases he : ((findPyprojectFiles w).2).isEmpty
  · simp [mainA, he, exitStatus]
  · rcases hg : (genLoop (findPyprojectFiles w).2 0 0).2.1 with d | _ | ⟨cs, cf⟩ <;>
      simp [mainA, generateLockFiles, he, hg, exitStatus, genExit]

lemma mainBLoop_dirExists_cons (fx : FixtureB) (rest : List FixtureB)
    (hd : fx.dirExists = true) (hm : fx.tool.missing = false)
    (hc : fx.tool.exitCode = 0) :
    mainBLoop (fx :: rest) =
      (Event.invoke (pixiInstallArgsB fx.name) ::
         Event.classify fx.name Outcome.success :: (mainBLoop rest).1,
       (mainBLoop rest).2.1,
       { fx with hasLock := true } :: (mainBLoop rest).2.2) := by
  have hsub : subprocessRun (pixiInstallArgsB fx.name) fx.tool =
      SubprocessOutcome.completed fx.tool.exitCode := by
    simp [subprocessRun, hm, pixiInstallArgsB]
  simp [mainBLoop, hd, hsub, hc]

lemma mainBLoop_skip_cons (fx : FixtureB) (rest : List FixtureB)
    (hd : fx.dirExists = false) :
    mainBLoop (fx :: rest) =
      (Event.logDirSkipped fx.name :: (mainBLoop rest).1,
       (mainBLoop rest).2.1, fx :: (mainBLoop rest).2.2) := by
  simp [mainBLoop, hd]

lemma mainBLoop_fail_cons (fx : FixtureB) (rest : List FixtureB)
    (hd : fx.dirExists = true) (hm : fx.tool.missing = false)
    (hc : fx.tool.exitCode ≠ 0) :
    mainBLoop (fx :: rest) =
      ([Event.invoke (pixiInstallArgsB fx.name),
        Event.classify fx.name Outcome.failure], 1, fx :: rest) := by
  have hsub : subprocessRun (pixiInstallArgsB fx.name) fx.tool =
      SubprocessOutcome.completed fx.tool.exitCode := by
    simp [subprocessRun, hm, pixiInstallArgsB]
  simp [mainBLoop, hd, hsub, hc]

lemma mainBLoop_missing_cons (fx : FixtureB) (rest : List FixtureB)
    (hd : fx.dirExists = true) (hm : fx.tool.missing = true) :
    mainBLoop (fx :: rest) =
      ([Event.invoke (pixiInstallArgsB fx.name), Event.logNotFoundHelp],
       1, fx :: rest) := by
  have hsub : subprocessRun (pixiInstallArgsB fx.name) fx.tool =
      SubprocessOutcome.fileNotFound := by
    simp [subprocessRun, hm]
  simp [mainBLoop, hd, hsub]

lemma mainBLoop_zero_iff (fs : List FixtureB) :
    (mainBLoop fs).2.1 = 0 ↔
      ∀ fx ∈ fs, fx.dirExists = true → fixtureSucceedsB fx = true := by
  induction fs with
  | nil => simp [mainBLoop]
  | cons fx rest ih =>
    by_cases hd : fx.dirExists = true
    · by_cases hm : fx.tool.missing = true
      · rw [mainBLoop_missing_cons fx rest hd hm]
        constructor
        · intro h0; simp at h0
        · intro hall
          have := hall fx (List.mem_cons_self fx rest) hd
          simp [fixtureSucceedsB, hm] at this
      · have hm2 : fx.tool.missing = false := by simpa using hm
        by_cases hc : fx.tool.exitCode = 0
        · rw [mainBLoop_dirExists_cons fx rest hd hm2 hc]
          dsimp only
          rw [ih]
          constructor
          · intro hall fy hy hdy
            rcases List.mem_cons.mp hy with rfl | hy
            · simp [fixtureSucceedsB, hm2, hc]
            · exact hall fy hy hdy
          · intro hall fy hy hdy
            exact hall fy (List.mem_cons_of_mem fx hy) hdy
        · rw [mainBLoop_fail_cons fx rest hd hm2 hc]
          constructor
          · intro h0; simp at h0
          · intro hall
            have := hall fx (List.mem_cons_self fx rest) hd
            simp [fixtureSucceedsB, hc] at this
    · have hd2 : fx.dirExists = false := by simpa using hd
      rw [mainBLoop_skip_cons fx rest hd2]
      dsimp only
      rw [ih]
      constructor
      · intro hall fy hy hdy
        rcases List.mem_cons.mp hy with rfl | hy
        · exact absurd hdy hd
        · exact hall fy hy hdy
      · intro hall fy hy hdy
        exact hall fy (List.mem_cons_of_mem fx hy) hdy

lemma mainBLoop_ok_prefix (fs₁ rest : List FixtureB)
    (h : ∀ fy ∈ fs₁, okB fy = true) :
    mainBLoop (fs₁ ++ rest) =
      ((fs₁.map stepEventsB).flatten ++ (mainBLoop rest).1,
       (mainBLoop rest).2.1,
       fs₁.map stepFixB ++ (mainBLoop rest).2.2) := by
  induction fs₁ with
  | nil => simp
  | cons fx fs ihp =>
    have hfx : okB fx = true := h fx (List.mem_cons_self fx fs)
    have hfs : ∀ fy ∈ fs, okB fy = true :=
      fun fy hy => h fy (List.mem_cons_of_mem fx hy)
    by_cases hd : fx.dirExists = true
    · have hok : fx.tool.missing = false ∧ fx.tool.exitCode = 0 := by
        simpa [okB, hd] using hfx
      rw [List.cons_append,
          mainBLoop_dirExists_cons fx (fs ++ rest) hd hok.1 hok.2, ihp hfs]
      simp [stepEventsB, stepFixB, hd]
    · have hd2 : fx.dirExists = false := by simpa using hd
      rw [List.cons_append, mainBLoop_skip_cons fx (fs ++ rest) hd2, ihp hfs]
      simp [stepEventsB, stepFixB, hd2]

lemma flatten_stepEventsB_countP_invoke (fs : List FixtureB) :
    ((fs.map stepEventsB).flatten).countP Event.isInvoke =
      fs.countP (fun fx => fx.dirExists) := by
  induction fs with
  | nil => simp
  | cons fx fs ih =>
    by_cases hd : fx.dirExists = true <;>
      simp [stepEventsB, hd, List.countP_append, List.countP_cons,
            Event.isInvoke, ih]

lemma mainBLoop_zero_classify (fs : List FixtureB)
    (h : (mainBLoop fs).2.1 = 0) :
    ((mainBLoop fs).1).countP Event.isClassify =
      fs.countP (fun fx => fx.dirExists) := by
  induction fs with
  | nil => simp [mainBLoop]
  | cons fx rest ih =>
    by_cases hd : fx.dirExists = true
    · by_cases hm : fx.tool.missing = true
      · rw [mainBLoop_missing_cons fx rest hd hm] at h; simp at h
      · have hm2 : fx.tool.missing = false := by simpa using hm
        by_cases hc : fx.tool.exitCode = 0
        · rw [mainBLoop_dirExists_cons fx rest hd hm2 hc] at h ⊢
          dsimp only at h ⊢
          rw [List.countP_cons, List.countP_cons, ih h, List.countP_cons]
          simp [Event.isClassify, Event.isInvoke, hd]
        · rw [mainBLoop_fail_cons fx rest hd hm2 hc] at h; simp at h
    · have hd2 : fx.dirExists = false := by simpa using hd
      rw [mainBLoop_skip_cons fx rest hd2] at h ⊢
      dsimp only at h ⊢
      rw [List.countP_cons, ih h, List.countP_cons]
      simp [Event.isClassify, hd2]

lemma mainBLoop_one_exists (fs : List FixtureB)
    (h : (mainBLoop fs).2.1 = 1) :
    ∃ fx ∈ fs, fx.dirExists = true ∧
      (fx.tool.missing = true ∨ fx.tool.exitCode ≠ 0) := by
  have hne : ¬((mainBLoop fs).2.1 = 0) := by omega
  rw [mainBLoop_zero_iff] at hne
  push_neg at hne
  obtain ⟨fx, hx, hdx, hsx⟩ := hne
  refine ⟨fx, hx, hdx, ?_⟩
  by_cases hm : fx.tool.missing = true
  · exact Or.inl hm
  · have hm2 : fx.tool.missing = false := by simpa using hm
    refine Or.inr ?_
    intro hc
    exact hsx (by simp [fixtureSucceedsB, hm2, hc])

lemma genLoop_counts_classify (fs : List FixtureA) (s f cs cf : Nat)
    (h : (genLoop fs s f).2.1 = GenResult.counts cs cf) :
    ((genLoop fs s f).1).countP Event.isClassify = fs.length := by
  induction fs generalizing s f cs cf with
  | nil => simp [genLoop]
  | cons fx rest ih =>
    rcases fixtureA_cases fx with hc | ⟨h1, h2⟩ | hc
    · rw [genLoop_cons_raise fx rest s f hc] at h; simp at h
    · rw [genLoop_cons_missing fx rest s f h1 h2] at h; simp at h
    · rw [genLoop_cons_normal fx rest s f hc] at h ⊢
      dsimp only at h ⊢
      rw [List.countP_append, stepEventsA_countP_classify,
          ih (s + succIncr fx) (f + failIncr fx) cs cf h]
      simp [Nat.add_comm]

lemma genLoop_returnedFalse_exists (fs : List FixtureA) (s f : Nat)
    (h : (genLoop fs s f).2.1 = GenResult.returnedFalse) :
    ∃ fx ∈ fs, fx.tool.missing = true := by
  induction fs generalizing s f with
  | nil => simp [genLoop] at h
  | cons fx rest ih =>
    rcases fixtureA_cases fx with hc | ⟨h1, h2⟩ | hc
    · rw [genLoop_cons_raise fx rest s f hc] at h; simp at h
    · exact ⟨fx, List.mem_cons_self fx rest, h2⟩
    · rw [genLoop_cons_normal fx rest s f hc] at h
      dsimp only at h
      obtain ⟨fy, hy, hmy⟩ := ih (s + succIncr fx) (f + failIncr fx) h
      exact ⟨fy, List.mem_cons_of_mem fx hy, hmy⟩

lemma genLoop_raised_exists (fs : List FixtureA) (s f : Nat) (d : String)
    (h : (genLoop fs s f).2.1 = GenResult.raisedOSError d) :
    ∃ fx ∈ fs, fx.hasLock = true ∧ fx.unlinkRaises = true ∧ fx.name = d := by
  induction fs generalizing s f with
  | nil => simp [genLoop] at h
  | cons fx rest ih =>
    rcases fixtureA_cases fx with hc | ⟨h1, h2⟩ | hc
    · rw [genLoop_cons_raise fx rest s f hc] at h
      simp only [GenResult.raisedOSError.injEq] at h
      have hb : fx.hasLock = true ∧ fx.unlinkRaises = true := by
        simpa [abortsUnlink] using hc
      exact ⟨fx, List.mem_cons_self fx rest, hb.1, hb.2, h⟩
    · rw [genLoop_cons_missing fx rest s f h1 h2] at h; simp at h
    · rw [genLoop_cons_normal fx rest s f hc] at h
      dsimp only at h
      obtain ⟨fy, hy, hmy⟩ := ih (s + succIncr fx) (f + failIncr fx) h
      exact ⟨fy, List.mem_cons_of_mem fx hy, hmy⟩

lemma cleanupE_eq_ok (fs : List FixtureA) :
    cleanupE fs = Except.ok (cleanupRun fs) := by
  induction fs with
  | nil => rfl
  | cons fx rest ih =>
      simp [cleanupE, cleanupRun, ih, Bind.bind, Except.bind]

lemma cleanupRun_counts (fs : List FixtureA) :
    (cleanupRun fs).2.1 =
        fs.countP (fun fx => fx.hasPixi && !fx.rmtreeRaises) ∧
      (cleanupRun fs).2.2.1 =
        fs.countP (fun fx => fx.hasPixi && fx.rmtreeRaises) := by
  induction fs with
  | nil => simp [cleanupRun]
  | cons fx rest ih =>
    by_cases hp : fx.hasPixi = true <;> by_cases hr : fx.rmtreeRaises = true <;>
      simp [cleanupRun, cleanupStep, rmtreePixi, hp, hr, List.countP_cons,
            ih.1, ih.2] <;> try omega

lemma cleanupRun_skip_event (fs : List FixtureA) (fx : FixtureA)
    (hm : fx ∈ fs) (hp : fx.hasPixi = false) :
    Event.cleanSkipped fx.name ∈ (cleanupRun fs).1 := by
  induction fs with
  | nil => simp at hm
  | cons fy rest ih =>
    rcases List.mem_cons.mp hm with rfl | hm2
    · simp [cleanupRun, cleanupStep, hp]
    · simp only [cleanupRun]
      exact List.mem_cons_of_mem _ (ih hm2)

lemma cleanupRun_fail_event (fs : List FixtureA) (fx : FixtureA)
    (hm : fx ∈ fs) (hp : fx.hasPixi = true) (hr : fx.rmtreeRaises = true) :
    Event.cleanFailed fx.name ∈ (cleanupRun fs).1 := by
  induction fs with
  | nil => simp at hm
  | cons fy rest ih =>
    rcases List.mem_cons.mp hm with rfl | hm2
    · simp [cleanupRun, cleanupStep, rmtreePixi, hp, hr]
    · simp only [cleanupRun]
      exact List.mem_cons_of_mem _ (ih hm2)

lemma cleanupRun_filter_classify (fs : List FixtureA) :
    ((cleanupRun fs).1).filter Event.isClassify = [] := by
  induction fs with
  | nil => simp [cleanupRun]
  | cons fx rest ih =>
    by_cases hp : fx.hasPixi = true <;> by_cases hr : fx.rmtreeRaises = true <;>
      simp [cleanupRun, cleanupStep, rmtreePixi, hp, hr, Event.isClassify, ih]

lemma projA_stepFixA (fx : FixtureA) : projA (stepFixA fx) = projA fx := by
  by_cases ho : outcomeOfA fx = Outcome.success <;>
    by_cases hl : fx.hasLock = true <;>
    simp [stepFixA, projA, ho, hl]

lemma genLoop_preserves_projA (fs : List FixtureA) (s f : Nat) :
    ((genLoop fs s f).2.2).map projA = fs.map projA := by
  induction fs generalizing s f with
  | nil => simp [genLoop]
  | cons fx rest ih =>
    rcases fixtureA_cases fx with hc | ⟨h1, h2⟩ | hc
    · rw [genLoop_cons_raise fx rest s f hc]
    · rw [genLoop_cons_missing fx rest s f h1 h2]
      by_cases hl : fx.hasLock = true <;> simp [hl, projA]
    · rw [genLoop_cons_normal fx rest s f hc]
      dsimp only
      simp [projA_stepFixA, ih]

lemma cleanupRun_preserves_projA (fs : List FixtureA) :
    ((cleanupRun fs).2.2.2).map projA = fs.map projA := by
  induction fs with
  | nil => simp [cleanupRun]
  | cons fx rest ih =>
    by_cases hp : fx.hasPixi = true <;> by_cases hr : fx.rmtreeRaises = true <;>
      simp [cleanupRun, cleanupStep, rmtreePixi, hp, hr, projA, ih]

lemma stepEventsA_filter_classify (fx : FixtureA) :
    (stepEventsA fx).filter Event.isClassify =
      [Event.classify fx.name (outcomeOfA fx)] := by
  by_cases hl : fx.hasLock = true <;>
    simp [stepEventsA, hl, Event.isClassify]

lemma normalA_fields (fx : FixtureA) (h : normalA fx = true) :
    abortsUnlink fx = false ∧ fx.tool.missing = false := by
  simpa [normalA] using h

lemma genLoop_filter_classify (fs : List FixtureA) (s f : Nat)
    (hall : ∀ fx ∈ fs, fx.unlinkRaises = false) :
    ((genLoop fs s f).1).filter Event.isClassify = classifySeq fs := by
  induction fs generalizing s f with
  | nil => simp [genLoop, classifySeq]
  | cons fx rest ih =>
    have hfx : fx.unlinkRaises = false := hall fx (List.mem_cons_self fx rest)
    have hrest : ∀ fy ∈ rest, fy.unlinkRaises = false :=
      fun fy hy => hall fy (List.mem_cons_of_mem fx hy)
    rcases fixtureA_cases fx with hc | ⟨h1, h2⟩ | hc
    · exfalso
      simp [abortsUnlink, hfx] at hc
    · rw [genLoop_cons_missing fx rest s f h1 h2]
      by_cases hl : fx.hasLock = true <;>
        simp [hl, classifySeq, h2, Event.isClassify]
    · have hm : fx.tool.missing = false := (normalA_fields fx hc).2
      rw [genLoop_cons_normal fx rest s f hc]
      dsimp only
      rw [List.filter_append, stepEventsA_filter_classify, ih _ _ hrest]
      simp [classifySeq, hm]

lemma classifySeq_projA (fs fs' : List FixtureA)
    (h : fs.map projA = fs'.map projA) : classifySeq fs = classifySeq fs' := by
  induction fs generalizing fs' with
  | nil =>
    cases fs' with
    | nil => rfl
    | cons fy rest' => simp at h
  | cons fx rest ih =>
    cases fs' with
    | nil => simp at h
    | cons fy rest' =>
      simp only [List.map_cons, List.cons.injEq] at h
      have hname : fx.name = fy.name := congrArg Prod.fst h.1
      have htool : fx.tool = fy.tool := congrArg (fun p => p.2.1) h.1
      have hout : outcomeOfA fx = outcomeOfA fy := by simp [outcomeOfA, htool]
      simp [classifySeq, hname, htool, hout, ih rest' h.2]

lemma projA_unlinkRaises_transfer (fs fs' : List FixtureA)
    (h : fs.map projA = fs'.map projA)
    (hall : ∀ fx ∈ fs, fx.unlinkRaises = false) :
    ∀ fx ∈ fs', fx.unlinkRaises = false := by
  intro fx hx
  have hmem : projA fx ∈ fs'.map projA := List.mem_map_of_mem projA hx
  rw [← h] at hmem
  obtain ⟨fy, hy, he⟩ := List.mem_map.mp hmem
  have hu : fy.unlinkRaises = fx.unlinkRaises := congrArg (fun p => p.2.2) he
  rw [← hu]
  exact hall fy hy

lemma mainA_noRoot (w : WorldA) (h : w.fixturesDirExists = false) :
    mainA w = ([Event.logLocatorMissing], MainResult.exited 1, w) := by
  simp [mainA, findPyprojectFiles, h]

lemma mainA_emptyFixtures (w : WorldA) (hd : w.fixturesDirExists = true)
    (he : w.fixtures = []) :
    mainA w = ([], MainResult.exited 1, w) := by
  simp [mainA, findPyprojectFiles, hd, he]

lemma mainA_raised (w : WorldA) (hd : w.fixturesDirExists = true)
    (hne : w.fixtures ≠ []) (d : String)
    (hg : (genLoop w.fixtures 0 0).2.1 = GenResult.raisedOSError d) :
    mainA w = ((genLoop w.fixtures 0 0).1, MainResult.uncaught d,
      { w with fixtures := (genLoop w.fixtures 0 0).2.2 }) := by
  have he : (w.fixtures).isEmpty = false := by
    simpa [List.isEmpty_iff] using hne
  simp [mainA, findPyprojectFiles, generateLockFiles, hd, he, hg]

lemma mainA_returnedFalse (w : WorldA) (hd : w.fixturesDirExists = true)
    (hne : w.fixtures ≠ [])
    (hg : (genLoop w.fixtures 0 0).2.1 = GenResult.returnedFalse) :
    mainA w = ((genLoop w.fixtures 0 0).1, MainResult.exited 1,
      { w with fixtures := (genLoop w.fixtures 0 0).2.2 }) := by
  have he : (w.fixtures).isEmpty = false := by
    simpa [List.isEmpty_iff] using hne
  simp [mainA, findPyprojectFiles, generateLockFiles, hd, he, hg]

lemma mainA_counts (w : WorldA) (hd : w.fixturesDirExists = true)
    (hne : w.fixtures ≠ []) (cs cf : Nat)
    (hg : (genLoop w.fixtures 0 0).2.1 = GenResult.counts cs cf) :
    mainA w = ((genLoop w.fixtures 0 0).1 ++
        (maybeCleanup cs (genLoop w.fixtures 0 0).2.2).1 ++
        [Event.summary cs cf],
      MainResult.exited (if 0 < cf then 1 else 0),
      { w with fixtures := (maybeCleanup cs (genLoop w.fixtures 0 0).2.2).2 }) := by
  have he : (w.fixtures).isEmpty = false := by
    simpa [List.isEmpty_iff] using hne
  simp [mainA, findPyprojectFiles, generateLockFiles, hd, he, hg]

lemma mainA_filter_classify (w : WorldA)
    (hall : ∀ fx ∈ w.fixtures, fx.unlinkRaises = false) :
    ((mainA w).1).filter Event.isClassify =
      classifySeq (findPyprojectFiles w).2 := by
  by_cases hd : w.fixturesDirExists = true
  · by_cases he : w.fixtures = []
    · rw [mainA_emptyFixtures w hd he]
      simp [findPyprojectFiles, hd, he, classifySeq]
    · have hfiles : (findPyprojectFiles w).2 = w.fixtures := by
        simp [findPyprojectFiles, hd]
      rcases hg : (genLoop w.fixtures 0 0).2.1 with d | _ | ⟨cs, cf⟩
      · rw [mainA_raised w hd he d hg, hfiles]
        exact genLoop_filter_classify w.fixtures 0 0 hall
      · rw [mainA_returnedFalse w hd he hg, hfiles]
        exact genLoop_filter_classify w.fixtures 0 0 hall
      · rw [mainA_counts w hd he cs cf hg, hfiles]
        dsimp only
        rw [List.filter_append, List.filter_append,
            genLoop_filter_classify w.fixtures 0 0 hall]
        have hmc : ((maybeCleanup cs (genLoop w.fixtures 0 0).2.2).1).filter
            Event.isClassify = [] := by
          by_cases hs : 0 < cs <;>
            simp [maybeCleanup, hs, cleanupRun_filter_classify]
        rw [hmc]
        simp [Event.isClassify]
  · have hd2 : w.fixturesDirExists = false := by simpa using hd
    rw [mainA_noRoot w hd2]
    simp [findPyprojectFiles, hd2, classifySeq, Event.isClassify]

lemma mainA_world (w : WorldA) :
    ((mainA w).2.2).fixturesDirExists = w.fixturesDirExists ∧
      ((mainA w).2.2).fixtures.map projA = w.fixtures.map projA := by
  by_cases hd : w.fixturesDirExists = true
  · by_cases he : w.fixtures = []
    · rw [mainA_emptyFixtures w hd he]; exact ⟨rfl, rfl⟩
    · rcases hg : (genLoop w.fixtures 0 0).2.1 with d | _ | ⟨cs, cf⟩
      · rw [mainA_raised w hd he d hg]
        exact ⟨rfl, genLoop_preserves_projA w.fixtures 0 0⟩
      · rw [mainA_returnedFalse w hd he hg]
        exact ⟨rfl, genLoop_preserves_projA w.fixtures 0 0⟩
      · rw [mainA_counts w hd he cs cf hg]
        refine ⟨rfl, ?_⟩
        by_cases hs : 0 < cs
        · dsimp only
          simp only [maybeCleanup, hs, if_pos]
          rw [cleanupRun_preserves_projA, genLoop_preserves_projA]
        · dsimp only
          simp only [maybeCleanup, hs, if_false]
          rw [genLoop_preserves_projA]
  · have hd2 : w.fixturesDirExists = false := by simpa using hd
    rw [mainA_noRoot w hd2]; exact ⟨rfl, rfl⟩

lemma pixiInstallArgsA_inj (d d' : String)
    (h : pixiInstallArgsA d = pixiInstallArgsA d') : d = d' :=
  congrArg RunArgs.cwd h

lemma mainBLoop_no_deleteLock (fs : List FixtureB) (d : String) :
    Event.deleteLock d ∉ (mainBLoop fs).1 := by
  induction fs with
  | nil => simp [mainBLoop]
  | cons fx rest ih =>
    by_cases hd : fx.dirExists = true
    · by_cases hm : fx.tool.missing = true
      · rw [mainBLoop_missing_cons fx rest hd hm]; simp
      · have hm2 : fx.tool.missing = false := by simpa using hm
        by_cases hc : fx.tool.exitCode = 0
        · rw [mainBLoop_dirExists_cons fx rest hd hm2 hc]
          simp [ih]
        · rw [mainBLoop_fail_cons fx rest hd hm2 hc]; simp
    · have hd2 : fx.dirExists = false := by simpa using hd
      rw [mainBLoop_skip_cons fx rest hd2]
      simp [ih]

lemma genLoop_delete_before_invoke (fs : List FixtureA) (s f : Nat)
    (fx : FixtureA) (hnd : (fs.map FixtureA.name).Nodup) (hmem : fx ∈ fs)
    (hl : fx.hasLock = true)
    (hinv : Event.invoke (pixiInstallArgsA fx.name) ∈ (genLoop fs s f).1) :
    List.Sublist [Event.deleteLock fx.name,
      Event.invoke (pixiInstallArgsA fx.name)] ((genLoop fs s f).1) := by
  induction fs generalizing s f with
  | nil => simp at hmem
  | cons fy rest ih =>
    have hnd2 : (rest.map FixtureA.name).Nodup := by
      simp only [List.map_cons, List.nodup_cons] at hnd
      exact hnd.2
    rcases List.mem_cons.mp hmem with rfl | hmem2
    · rcases fixtureA_cases fx with hc | ⟨h1, h2⟩ | hc
      · rw [genLoop_cons_raise fx rest s f hc] at hinv
        simp at hinv
      · rw [genLoop_cons_missing fx rest s f h1 h2] at hinv ⊢
        simp [hl]
      · rw [genLoop_cons_normal fx rest s f hc]
        refine List.Sublist.trans ?_ (List.sublist_append_left _ _)
        simp [stepEventsA, hl]
    · have hnames : fy.name ∉ rest.map FixtureA.name := by
        simp only [List.map_cons, List.nodup_cons] at hnd
        exact hnd.1
      have hne : fx.name ≠ fy.name := by
        intro he
        exact hnames (he ▸ List.mem_map_of_mem FixtureA.name hmem2)
      rcases fixtureA_cases fy with hc | ⟨h1, h2⟩ | hc
      · rw [genLoop_cons_raise fy rest s f hc] at hinv
        simp at hinv
      · rw [genLoop_cons_missing fy rest s f h1 h2] at hinv
        exfalso
        by_cases hly : fy.hasLock = true <;> simp [hly] at hinv <;>
          exact hne (pixiInstallArgsA_inj _ _ hinv)
      · rw [genLoop_cons_normal fy rest s f hc] at hinv ⊢
        dsimp only at hinv ⊢
        rw [List.mem_append] at hinv
        rcases hinv with hinv | hinv
        · exfalso
          by_cases hly : fy.hasLock = true <;>
            simp [stepEventsA, hly] at hinv <;>
            exact hne (pixiInstallArgsA_inj _ _ hinv)
        · exact (ih _ _ hnd2 hmem2 hinv).trans (List.sublist_append_right _ _)

lemma genExit_binary (r : GenResult) : genExit r = 0 ∨ genExit r = 1 := by
  rcases r with d | _ | ⟨cs, cf⟩ <;> (simp [genExit]; try omega)

lemma mainBLoop_code_binary (fs : List FixtureB) :
    (mainBLoop fs).2.1 = 0 ∨ (mainBLoop fs).2.1 = 1 := by
  induction fs with
  | nil => simp [mainBLoop]
  | cons fx rest ih =>
    by_cases hd : fx.dirExists = true
    · by_cases hm : fx.tool.missing = true
      · rw [mainBLoop_missing_cons fx rest hd hm]; simp
      · have hm2 : fx.tool.missing = false := by simpa using hm
        by_cases hc : fx.tool.exitCode = 0
        · rw [mainBLoop_dirExists_cons fx rest hd hm2 hc]
          exact ih
        · rw [mainBLoop_fail_cons fx rest hd hm2 hc]; simp
    · have hd2 : fx.dirExists = false := by simpa using hd
      rw [mainBLoop_skip_cons fx rest hd2]
      exact ih

/-- C6: in Variant A, for every run where the fixtures root directory
does not exist, the Locator logs an error and returns an empty
sequence, and the run exits with status 1 without ever invoking the
external tool. -/
theorem C6_theorem (w : WorldA) (h : w.fixturesDirExists = false) :
    findPyprojectFiles w = ([Event.logLocatorMissing], []) ∧
    (mainA w).2.1 = MainResult.exited 1 ∧
    ((mainA w).1).countP Event.isInvoke = 0 := by
  refine ⟨by simp [findPyprojectFiles, h], ?_, ?_⟩
  · rw [mainA_noRoot w h]
  · rw [mainA_noRoot w h]
    simp [Event.isInvoke]

/-- C6 witness: the theorem applied to a concrete world whose fixtures
root is missing. -/
theorem C6_witness :
    findPyprojectFiles noRootWorld = ([Event.logLocatorMissing], []) ∧
    (mainA noRootWorld).2.1 = MainResult.exited 1 ∧
    ((mainA noRootWorld).1).countP Event.isInvoke = 0 :=
  C6_theorem noRootWorld rfl

/-- C7: in Variant A, every external-tool invocation carries a wait
bound of exactly 300 seconds with stdout and stderr captured as text;
and a fixture whose tool runs past the bound is classified as a
timeout, increments the failure counter, logs the timeout notice, and
processing continues with the next fixture. -/
theorem C7_theorem :
    (∀ (fs : List FixtureA) (s f : Nat) (args : RunArgs),
        Event.invoke args ∈ (genLoop fs s f).1 →
        args.timeout = some 300 ∧ args.captureOutput = true ∧
          args.text = true ∧ args.cmd = ["pixi", "install"]) ∧
    (∀ (fx : FixtureA) (rest : List FixtureA) (s f : Nat),
        normalA fx = true → 300 < fx.tool.duration →
        genLoop (fx :: rest) s f =
          (stepEventsA fx ++ (genLoop rest s (f + 1)).1,
           (genLoop rest s (f + 1)).2.1,
           stepFixA fx :: (genLoop rest s (f + 1)).2.2) ∧
        Event.classify fx.name Outcome.timeout ∈ stepEventsA fx) := by
  constructor
  · intro fs s f args hmem
    have hsh := genLoop_invoke_shape fs s f args hmem
    rw [hsh]
    simp [pixiInstallArgsA]
  · intro fx rest s f hn ht
    have ho : outcomeOfA fx = Outcome.timeout := by simp [outcomeOfA, ht]
    have hi : succIncr fx = 0 := by simp [succIncr, ho]
    have hj : failIncr fx = 1 := by simp [failIncr, ho]
    constructor
    · have hstep := genLoop_cons_normal fx rest s f hn
      simp only [hi, hj, Nat.add_zero] at hstep
      exact hstep
    · simp [stepEventsA, ho]

/-- C7 witness: the invocation-argument facts at a concrete healthy
fixture, and the timeout behaviour at a concrete fixture whose tool
runs 301 seconds. -/
theorem C7_witness :
    ((pixiInstallArgsA fxOkA.name).timeout = some 300 ∧
      (pixiInstallArgsA fxOkA.name).captureOutput = true ∧
      (pixiInstallArgsA fxOkA.name).text = true ∧
      (pixiInstallArgsA fxOkA.name).cmd = ["pixi", "install"]) ∧
    (genLoop [fxSlowA] 0 0 =
        (stepEventsA fxSlowA ++ (genLoop [] 0 (0 + 1)).1,
         (genLoop [] 0 (0 + 1)).2.1,
         stepFixA fxSlowA :: (genLoop [] 0 (0 + 1)).2.2) ∧
      Event.classify fxSlowA.name Outcome.timeout ∈ stepEventsA fxSlowA) :=
  ⟨C7_theorem.1 [fxOkA] 0 0 (pixiInstallArgsA fxOkA.name) (by decide),
   C7_theorem.2 fxSlowA [] 0 0 (by decide) (by decide)⟩

/-- C9: in Variant A, the tool-not-found abort is not atomic: for the
fixture being attempted when the executable is missing, a pre-existing
`pixi.lock` has already been deleted before the failed invocation and
is not restored, so the run exits 1 having removed a lock file without
regenerating it. -/
theorem C9_theorem (w : WorldA) (fs₁ : List FixtureA) (fx : FixtureA)
    (fs₂ : List FixtureA) (hd : w.fixturesDirExists = true)
    (hw : w.fixtures = fs₁ ++ fx :: fs₂)
    (hpre : ∀ fy ∈ fs₁, normalA fy = true)
    (hl : fx.hasLock = true) (hu : fx.unlinkRaises = false)
    (hm : fx.tool.missing = true) :
    (mainA w).1 =
        (fs₁.map stepEventsA).flatten ++
          [Event.deleteLock fx.name, Event.invoke (pixiInstallArgsA fx.name),
           Event.logNotFoundHelp] ∧
      (mainA w).2.1 = MainResult.exited 1 ∧
      ((mainA w).2.2).fixtures =
        fs₁.map stepFixA ++ ({ fx with hasLock := false } :: fs₂) := by
  have hab : abortsUnlink fx = false := by simp [abortsUnlink, hu]
  have hgen := genLoop_ok_prefix fs₁ (fx :: fs₂) 0 0 hpre
  rw [genLoop_cons_missing fx fs₂ (0 + succCountA fs₁) (0 + failCountA fs₁)
      hab hm] at hgen
  dsimp only at hgen
  rw [hl] at hgen
  simp only [if_true] at hgen
  have hne : w.fixtures ≠ [] := by rw [hw]; simp
  have hg1 : (genLoop w.fixtures 0 0).2.1 = GenResult.returnedFalse := by
    rw [hw, hgen]
  have hmain := mainA_returnedFalse w hd hne hg1
  refine ⟨?_, ?_, ?_⟩
  · rw [hmain]
    dsimp only
    rw [hw, hgen]
    simp
  · rw [hmain]
  · rw [hmain]
    dsimp only
    rw [hw, hgen]

/-- C9 witness: the theorem applied to a concrete world whose single
fixture has a pre-existing lock file and a missing tool executable. -/
theorem C9_witness :
    (mainA missingToolWorld).1 =
        (([] : List FixtureA).map stepEventsA).flatten ++
          [Event.deleteLock fxLockMissingTool.name,
           Event.invoke (pixiInstallArgsA fxLockMissingTool.name),
           Event.logNotFoundHelp] ∧
      (mainA missingToolWorld).2.1 = MainResult.exited 1 ∧
      ((mainA missingToolWorld).2.2).fixtures =
        ([] : List FixtureA).map stepFixA ++
          ({ fxLockMissingTool with hasLock := false } :: []) :=
  C9_theorem missingToolWorld [] fxLockMissingTool [] rfl rfl
    (by simp) (by decide) (by decide) (by decide)

/-- C10: in Variant A, the deletion of a pre-existing lock file is
performed outside the exception-handling block guarding the tool
invocation, so when that deletion raises an OS error the exception
propagates out of `generate_lock_files` and `main` uncaught: the
fixture receives no outcome classification and the final summary is
never printed. -/
theorem C10_theorem (w : WorldA) (fs₁ : List FixtureA) (fx : FixtureA)
    (fs₂ : List FixtureA) (hd : w.fixturesDirExists = true)
    (hw : w.fixtures = fs₁ ++ fx :: fs₂)
    (hpre : ∀ fy ∈ fs₁, normalA fy = true)
    (hl : fx.hasLock = true) (hu : fx.unlinkRaises = true) :
    (mainA w).2.1 = MainResult.uncaught fx.name ∧
    ((mainA w).1).countP Event.isSummary = 0 ∧
    ((mainA w).1).countP Event.isClassify = fs₁.length := by
  have hab : abortsUnlink fx = true := by simp [abortsUnlink, hl, hu]
  have hgen := genLoop_ok_prefix fs₁ (fx :: fs₂) 0 0 hpre
  rw [genLoop_cons_raise fx fs₂ (0 + succCountA fs₁) (0 + failCountA fs₁)
      hab] at hgen
  dsimp only at hgen
  have hne : w.fixtures ≠ [] := by rw [hw]; simp
  have hg1 : (genLoop w.fixtures 0 0).2.1 =
      GenResult.raisedOSError fx.name := by
    rw [hw, hgen]
  have hmain := mainA_raised w hd hne fx.name hg1
  have htr : (mainA w).1 = (fs₁.map stepEventsA).flatten := by
    rw [hmain]
    dsimp only
    rw [hw, hgen]
    simp
  refine ⟨by rw [hmain], ?_, ?_⟩
  · rw [htr, flatten_stepEventsA_countP_summary]
  · rw [htr, flatten_stepEventsA_countP_classify]

/-- C10 witness: the theorem applied to a concrete world whose single
fixture has a lock file whose deletion raises. -/
theorem C10_witness :
    (mainA unlinkBoomWorld).2.1 = MainResult.uncaught fxUnlinkBoom.name ∧
    ((mainA unlinkBoomWorld).1).countP Event.isSummary = 0 ∧
    ((mainA unlinkBoomWorld).1).countP Event.isClassify =
      ([] : List FixtureA).length :=
  C10_theorem unlinkBoomWorld [] fxUnlinkBoom [] rfl rfl
    (by simp) (by decide) (by decide)

/-- C2 counterexample: in Variant B, when none of the three hardcoded
fixture directories exists on disk, no tool invocation happens and yet
the process exits 0, contradicting the claim that a run with no
fixture directories found exits 1. -/
theorem C2_counterexample :
    ([bMissing1, bMissing2, bMissing3].map FixtureB.name = PIXI_DIRS) ∧
    ([bMissing1, bMissing2, bMissing3].map FixtureB.dirExists =
      [false, false, false]) ∧
    ((mainB [bMissing1, bMissing2, bMissing3]).1).countP Event.isInvoke = 0 ∧
    (mainB [bMissing1, bMissing2, bMissing3]).2.1 = 0 := by
  decide

/-- C2 (corrected): in Variant A the process exit status is 0 exactly
when fixtures were found and every fixture succeeded (and is 1
otherwise, covering no-manifests, tool-missing and per-fixture
failures); in Variant B the exit status is 0 exactly when every entry
whose directory exists succeeds — missing directories are skipped, so a
run finding no directories at all exits 0, not 1. -/
theorem C2_theorem :
    (∀ w : WorldA,
        (exitStatus (mainA w).2.1 = 0 ∨ exitStatus (mainA w).2.1 = 1) ∧
        (exitStatus (mainA w).2.1 = 0 ↔
          ((findPyprojectFiles w).2 ≠ [] ∧
            ∀ fx ∈ (findPyprojectFiles w).2, fixtureSucceedsA fx = true))) ∧
    (∀ fs : List FixtureB,
        ((mainB fs).2.1 = 0 ∨ (mainB fs).2.1 = 1) ∧
        ((mainB fs).2.1 = 0 ↔
          ∀ fx ∈ fs, fx.dirExists = true → fixtureSucceedsB fx = true)) := by
  constructor
  · intro w
    constructor
    · rw [mainA_exitStatus w]
      by_cases he : ((findPyprojectFiles w).2).isEmpty
      · simp [he]
      · rw [if_neg he]
        exact genExit_binary _
    · rw [mainA_exitStatus w]
      by_cases he : ((findPyprojectFiles w).2).isEmpty
      · have hnil : (findPyprojectFiles w).2 = [] := List.isEmpty_iff.mp he
        simp [he, hnil]
      · have hne : (findPyprojectFiles w).2 ≠ [] := by
          simpa [List.isEmpty_iff] using he
        rw [if_neg he, genExit_zero_iff]
        simp [hne]
  · intro fs
    exact ⟨mainBLoop_code_binary fs, mainBLoop_zero_iff fs⟩

/-- C2 witness: the amended characterization evaluated on a concrete
healthy Variant A world and on a concrete Variant B list whose only
existing entry succeeds. -/
theorem C2_witness :
    exitStatus (mainA cleanWorldA).2.1 = 0 ∧ (mainB [bOk2]).2.1 = 0 :=
  ⟨((C2_theorem.1 cleanWorldA).2).mpr ⟨by decide, by decide⟩,
   ((C2_theorem.2 [bOk2]).2).mpr (by decide)⟩

/-- C4 counterexample: a Variant B run over two existing directories
with the tool present everywhere, where the first invocation fails:
only one outcome classification is produced, the second directory is
never invoked, and the run aborts (exit 1) although the tool was never
missing — contradicting the claim that an entire-run abort happens only
in the tool-not-found case. -/
theorem C4_counterexample :
    bFail.dirExists = true ∧ bOk2.dirExists = true ∧
    bFail.tool.missing = false ∧ bOk2.tool.missing = false ∧
    (mainB [bFail, bOk2]).2.1 = 1 ∧
    ((mainB [bFail, bOk2]).1).countP Event.isClassify = 1 ∧
    ((mainB [bFail, bOk2]).1).countP Event.isInvoke = 1 := by
  decide

/-- C4 (corrected): when a run completes, every discovered fixture
yields exactly one Outcome; a Variant A loop that does not complete
ended either at a missing tool executable or at a lock-file deletion
that raised; a Variant B run additionally aborts at the first fixture
whose invocation fails (exit code 1 is reachable exactly via an
existing directory with a missing tool or a failing install). -/
theorem C4_theorem :
    (∀ (fs : List FixtureA) (s f cs cf : Nat),
        (genLoop fs s f).2.1 = GenResult.counts cs cf →
        ((genLoop fs s f).1).countP Event.isClassify = fs.length) ∧
    (∀ (fs : List FixtureA) (s f : Nat),
        (genLoop fs s f).2.1 = GenResult.returnedFalse →
        ∃ fx ∈ fs, fx.tool.missing = true) ∧
    (∀ (fs : List FixtureA) (s f : Nat) (d : String),
        (genLoop fs s f).2.1 = GenResult.raisedOSError d →
        ∃ fx ∈ fs, fx.hasLock = true ∧ fx.unlinkRaises = true ∧
          fx.name = d) ∧
    (∀ fs : List FixtureB,
        (mainBLoop fs).2.1 = 0 →
        ((mainBLoop fs).1).countP Event.isClassify =
          fs.countP (fun fx => fx.dirExists)) ∧
    (∀ fs : List FixtureB,
        (mainBLoop fs).2.1 = 1 →
        ∃ fx ∈ fs, fx.dirExists = true ∧
          (fx.tool.missing = true ∨ fx.tool.exitCode ≠ 0)) :=
  ⟨genLoop_counts_classify, genLoop_returnedFalse_exists,
   genLoop_raised_exists, mainBLoop_zero_classify, mainBLoop_one_exists⟩

/-- C4 witness: the completed-run part at a concrete one-fixture
Variant A loop, and the Variant B abort characterization at a concrete
failing entry. -/
theorem C4_witness :
    ((genLoop [fxOkA] 0 0).1).countP Event.isClassify = 1 ∧
    (∃ fx ∈ [bFail], fx.dirExists = true ∧
      (fx.tool.missing = true ∨ fx.tool.exitCode ≠ 0)) :=
  ⟨C4_theorem.1 [fxOkA] 0 0 1 0 (by decide),
   C4_theorem.2.2.2.2 [bFail] (by decide)⟩

/-- C1 counterexample: a Variant B run over an existing directory that
already contains a `pixi.lock` performs the tool invocation without
ever deleting the lock file — contradicting the claim that in both
variants a pre-existing lock file is deleted before the tool is
invoked. -/
theorem C1_counterexample :
    bLocked.hasLock = true ∧
    ((mainB [bLocked]).1).countP Event.isInvoke = 1 ∧
    ((mainB [bLocked]).1).countP Event.isDeleteLock = 0 := by
  decide

/-- C1 (corrected): in Variant A, every processed fixture with a
pre-existing `pixi.lock` has that file deleted before its tool
invocation (the deletion event precedes the invocation event in the
trace); Variant B never deletes a lock file at all. -/
theorem C1_theorem :
    (∀ (fs : List FixtureA) (s f : Nat) (fx : FixtureA),
        (fs.map FixtureA.name).Nodup → fx ∈ fs → fx.hasLock = true →
        Event.invoke (pixiInstallArgsA fx.name) ∈ (genLoop fs s f).1 →
        List.Sublist
          [Event.deleteLock fx.name, Event.invoke (pixiInstallArgsA fx.name)]
          ((genLoop fs s f).1)) ∧
    (∀ (fs : List FixtureB) (d : String),
        Event.deleteLock d ∉ (mainB fs).1) :=
  ⟨fun fs s f fx hnd hmem hl hinv =>
      genLoop_delete_before_invoke fs s f fx hnd hmem hl hinv,
   fun fs d => mainBLoop_no_deleteLock fs d⟩

/-- C1 witness: the deletion-before-invocation sublist at a concrete
locked fixture, and the absence of deletions in a concrete Variant B
run. -/
theorem C1_witness :
    List.Sublist
        [Event.deleteLock fxLockOk.name,
         Event.invoke (pixiInstallArgsA fxLockOk.name)]
        ((genLoop [fxLockOk] 0 0).1) ∧
      Event.deleteLock "pixi.lock" ∉ (mainB [bLocked]).1 :=
  ⟨C1_theorem.1 [fxLockOk] 0 0 fxLockOk (by decide) (by decide) (by decide)
      (by decide),
   C1_theorem.2 [bLocked] "pixi.lock"⟩

/-- C3: in both variants, when the tool executable is found missing at
an invocation, the run aborts immediately — no fixture after the one
being attempted is processed (the invocation count stops at the
attempted fixture), the install instructions are printed, and the
process exits with a non-zero status. -/
theorem C3_theorem :
    (∀ (fs₁ : List FixtureA) (fx : FixtureA) (fs₂ : List FixtureA)
        (s f : Nat),
        (∀ fy ∈ fs₁, normalA fy = true) → abortsUnlink fx = false →
        fx.tool.missing = true →
        (genLoop (fs₁ ++ fx :: fs₂) s f).2.1 = GenResult.returnedFalse ∧
        Event.logNotFoundHelp ∈ (genLoop (fs₁ ++ fx :: fs₂) s f).1 ∧
        ((genLoop (fs₁ ++ fx :: fs₂) s f).1).countP Event.isInvoke =
          fs₁.length + 1) ∧
    (∀ w : WorldA, w.fixturesDirExists = true → w.fixtures ≠ [] →
        (genLoop w.fixtures 0 0).2.1 = GenResult.returnedFalse →
        exitStatus (mainA w).2.1 = 1) ∧
    (∀ (fs₁ : List FixtureB) (fx : FixtureB) (fs₂ : List FixtureB),
        (∀ fy ∈ fs₁, okB fy = true) → fx.dirExists = true →
        fx.tool.missing = true →
        (mainBLoop (fs₁ ++ fx :: fs₂)).2.1 = 1 ∧
        Event.logNotFoundHelp ∈ (mainBLoop (fs₁ ++ fx :: fs₂)).1 ∧
        ((mainBLoop (fs₁ ++ fx :: fs₂)).1).countP Event.isInvoke =
          fs₁.countP (fun fy => fy.dirExists) + 1) := by
  refine ⟨?_, ?_, ?_⟩
  · intro fs₁ fx fs₂ s f hpre hab hm
    have hgen := genLoop_ok_prefix fs₁ (fx :: fs₂) s f hpre
    rw [genLoop_cons_missing fx fs₂ (s + succCountA fs₁) (f + failCountA fs₁)
        hab hm] at hgen
    dsimp only at hgen
    refine ⟨by rw [hgen], ?_, ?_⟩
    · rw [hgen]
      simp
    · rw [hgen]
      dsimp only
      rw [List.countP_append, flatten_stepEventsA_countP_invoke,
          List.countP_append]
      by_cases hl : fx.hasLock = true <;>
        simp [hl, List.countP_cons, Event.isInvoke]
  · intro w hd hne hg
    have hmain := mainA_returnedFalse w hd hne hg
    rw [hmain]
    rfl
  · intro fs₁ fx fs₂ hpre hd hm
    have hgen := mainBLoop_ok_prefix fs₁ (fx :: fs₂) hpre
    rw [mainBLoop_missing_cons fx fs₂ hd hm] at hgen
    dsimp only at hgen
    refine ⟨by rw [hgen], ?_, ?_⟩
    · rw [hgen]
      simp
    · rw [hgen]
      dsimp only
      rw [List.countP_append, flatten_stepEventsB_countP_invoke]
      simp [List.countP_cons, Event.isInvoke]

/-- C3 witness: the abort behaviour at a concrete Variant A fixture
with a missing tool, the exit-status link at the corresponding world,
and the Variant B abort at a concrete missing-tool entry. -/
theorem C3_witness :
    ((genLoop [fxLockMissingTool] 0 0).2.1 = GenResult.returnedFalse ∧
      Event.logNotFoundHelp ∈ (genLoop [fxLockMissingTool] 0 0).1 ∧
      ((genLoop [fxLockMissingTool] 0 0).1).countP Event.isInvoke = 1) ∧
    exitStatus (mainA missingToolWorld).2.1 = 1 ∧
    ((mainBLoop [bNoTool]).2.1 = 1 ∧
      Event.logNotFoundHelp ∈ (mainBLoop [bNoTool]).1 ∧
      ((mainBLoop [bNoTool]).1).countP Event.isInvoke = 1) :=
  ⟨C3_theorem.1 [] fxLockMissingTool [] 0 0 (by simp) (by decide) (by decide),
   C3_theorem.2.1 missingToolWorld rfl (by decide) (by decide),
   C3_theorem.2.2 [] bNoTool [] (by simp) (by decide) (by decide)⟩

/-- C5: in Variant A, the Environment Cleaner runs only when at least
one regeneration succeeded; every fixture lacking a `.pixi` cache
directory is reported as skipped and contributes to neither the cleaned
nor the failed count; every deletion that raises is logged and counted
as failed; and the Cleaner never raises to its caller. -/
theorem C5_theorem :
    (∀ fs : List FixtureA, maybeCleanup 0 fs = ([], fs)) ∧
    (∀ (s : Nat) (fs : List FixtureA), 0 < s →
        maybeCleanup s fs = ((cleanupRun fs).1, (cleanupRun fs).2.2.2)) ∧
    (∀ (w : WorldA) (cf : Nat), w.fixturesDirExists = true →
        w.fixtures ≠ [] →
        (genLoop w.fixtures 0 0).2.1 = GenResult.counts 0 cf →
        ((mainA w).1).countP Event.isCleanup = 0) ∧
    (∀ (fs : List FixtureA) (fx : FixtureA), fx ∈ fs →
        fx.hasPixi = false →
        Event.cleanSkipped fx.name ∈ (cleanupRun fs).1) ∧
    (∀ (fs : List FixtureA) (fx : FixtureA), fx ∈ fs →
        fx.hasPixi = true → fx.rmtreeRaises = true →
        Event.cleanFailed fx.name ∈ (cleanupRun fs).1) ∧
    (∀ fs : List FixtureA,
        (cleanupRun fs).2.1 =
            fs.countP (fun fx => fx.hasPixi && !fx.rmtreeRaises) ∧
          (cleanupRun fs).2.2.1 =
            fs.countP (fun fx => fx.hasPixi && fx.rmtreeRaises)) ∧
    (∀ fs : List FixtureA, cleanupE fs = Except.ok (cleanupRun fs)) := by
  refine ⟨?_, ?_, ?_, cleanupRun_skip_event, cleanupRun_fail_event,
    cleanupRun_counts, cleanupE_eq_ok⟩
  · intro fs
    simp [maybeCleanup]
  · intro s fs hs
    simp [maybeCleanup, hs]
  · intro w cf hd hne hg
    have hmain := mainA_counts w hd hne 0 cf hg
    rw [hmain]
    dsimp only
    rw [List.countP_append, List.countP_append]
    simp [maybeCleanup, genLoop_trace_no_cleanup, List.countP_cons,
          Event.isCleanup]

/-- C5 witness: the guarded-cleanup equations, the skipped report for a
fixture without a cache, the failed report for a fixture whose cache
deletion raises, and the no-raise property, all at concrete inputs. -/
theorem C5_witness :
    maybeCleanup 0 [fxOkA] = ([], [fxOkA]) ∧
    maybeCleanup 1 [fxOkA] =
      ((cleanupRun [fxOkA]).1, (cleanupRun [fxOkA]).2.2.2) ∧
    Event.cleanSkipped fxOkA.name ∈ (cleanupRun [fxOkA]).1 ∧
    Event.cleanFailed fxPixiBoom.name ∈ (cleanupRun [fxPixiBoom]).1 ∧
    cleanupE [fxPixiBoom] = Except.ok (cleanupRun [fxPixiBoom]) :=
  ⟨C5_theorem.1 [fxOkA],
   C5_theorem.2.1 1 [fxOkA] (by decide),
   C5_theorem.2.2.2.1 [fxOkA] fxOkA (by decide) (by decide),
   C5_theorem.2.2.2.2.1 [fxPixiBoom] fxPixiBoom (by decide) (by decide)
     (by decide),
   C5_theorem.2.2.2.2.2.2 [fxPixiBoom]⟩

/-- C8 counterexample: a fixture directory where deleting a lock file
would raise, starting without a lock file.  The first pipeline run
classifies it as a success (and the tool writes a lock file); the
second run then attempts the deletion, which raises, so the fixture
gets no classification at all — the two runs' per-fixture outcome
classifications differ even though the tool is deterministic. -/
theorem C8_counterexample :
    ((mainA trickyWorldA).1).filter Event.isClassify ≠
      ((mainA ((mainA trickyWorldA).2.2)).1).filter Event.isClassify := by
  decide

/-- C8 (corrected): running the Variant A pipeline twice in succession
on an unchanged fixture set with a deterministic external tool produces
the same per-fixture outcome classifications in both runs, provided
additionally that deleting a lock file never raises in any fixture
directory. -/
theorem C8_theorem (w : WorldA)
    (hall : ∀ fx ∈ w.fixtures, fx.unlinkRaises = false) :
    ((mainA ((mainA w).2.2)).1).filter Event.isClassify =
      ((mainA w).1).filter Event.isClassify := by
  obtain ⟨hdir, hproj⟩ := mainA_world w
  have hall2 : ∀ fx ∈ ((mainA w).2.2).fixtures, fx.unlinkRaises = false :=
    projA_unlinkRaises_transfer w.fixtures ((mainA w).2.2).fixtures
      hproj.symm hall
  rw [mainA_filter_classify w hall, mainA_filter_classify _ hall2]
  by_cases hd : w.fixturesDirExists = true
  · have h1 : (findPyprojectFiles w).2 = w.fixtures := by
      simp [findPyprojectFiles, hd]
    have hd1 : ((mainA w).2.2).fixturesDirExists = true := by
      rw [hdir]; exact hd
    have h2 : (findPyprojectFiles ((mainA w).2.2)).2 =
        ((mainA w).2.2).fixtures := by
      simp [findPyprojectFiles, hd1]
    rw [h1, h2]
    exact classifySeq_projA _ _ hproj
  · have hd2 : w.fixturesDirExists = false := by simpa using hd
    have hd3 : ((mainA w).2.2).fixturesDirExists = false := by
      rw [hdir]; exact hd2
    simp [findPyprojectFiles, hd2, hd3, classifySeq]

/-- C8 witness: the amended idempotence applied to a concrete healthy
world. -/
theorem C8_witness :
    ((mainA ((mainA cleanWorldA).2.2)).1).filter Event.isClassify =
      ((mainA cleanWorldA).1).filter Event.isClassify :=
  C8_theorem cleanWorldA (by decide)
